import Mathlib

/-!
Verification development for the PublicServerScanner worker core.

The definitions below are a shallow embedding of the Python worker code:

* `src/workers/checks/*.py` — the six check adapters, each embedded as a
  total function from the observable outcome of its external subprocess
  invocations to the result dictionary it returns;
* `src/workers/scan_worker.py` — the polling worker (`get_queued_scans`,
  `update_scan_status`, `execute_check`, `process_scan`), embedded as pure
  functions producing the list of persisted effects;
* `src/workers/tasks.py` — the Celery task `execute_scan`, embedded the same
  way;
* the job-claiming protocol (`SELECT ... FOR UPDATE SKIP LOCKED` followed by
  a status update and commit on the same connection), embedded as a labelled
  transition system over an abstract store state.

Effects that only touch log output, timestamps taken from the wall clock, or
free-form payload keys not referenced by any property are not modelled;
timestamps passed to the store are modelled as `Nat` arguments.
-/

namespace PSS

/-- Severity levels, the ordered set used by every adapter. -/
inductive Severity where
  | info
  | low
  | medium
  | high
deriving DecidableEq, Repr

/-- Execution status strings stored in a scan result row. -/
inductive CheckStatus where
  | success
  | failed
  | error
deriving DecidableEq, Repr

/-- Job status strings of the scan_jobs table. -/
inductive JobStatus where
  | queued
  | running
  | completed
  | failed
deriving DecidableEq, Repr

/-- The result dictionary returned by every check function.  Of the free-form
data payload only the `error` message key is modelled (`dataError`); the other
payload keys (raw output, parsed records, ...) are not referenced by any
property. -/
structure CheckResult where
  status : CheckStatus
  findings : Nat
  severity : Severity
  dataError : Option String := none
deriving DecidableEq, Repr

/-- Observable outcome of one `subprocess.run` invocation, as seen by an
adapter: the process completed with a return code and stdout text, or the
call raised `subprocess.TimeoutExpired`, `FileNotFoundError` (carrying the
`str(e)` text), or some other `Exception` (carrying the `str(e)` text). -/
inductive SubprocOutcome where
  | completed (returncode : Int) (stdout : String)
  | timedOut
  | fileNotFound (msg : String)
  | raised (msg : String)
deriving DecidableEq, Repr

/-- Outcome of calling a Python function that may raise: a returned value or
an exception with its `str(e)` text. -/
inductive PyOutcome (α : Type) where
  | ok (val : α)
  | raised (msg : String)
deriving DecidableEq, Repr

/-- Python `pat in s` substring membership, for a non-empty pattern. -/
def containsSub (s pat : String) : Bool :=
  2 ≤ (s.splitOn pat).length

/- ### Check adapters (src/workers/checks) -/

/-- Embedding of `ping_check` (src/workers/checks/ping.py).  The response-time
and packet-loss regex parsing only populates payload keys, so only the branch
on the return code is modelled. -/
def ping_check (target : String) (config : List (String × String))
    (env : SubprocOutcome) : CheckResult :=
  match env with
  | .completed rc _out =>
      if rc = 0 then
        { status := .success, findings := 0, severity := .info }
      else
        { status := .success, findings := 1, severity := .high,
          dataError := some "Target is not reachable" }
  | .timedOut =>
      { status := .failed, findings := 1, severity := .medium,
        dataError := some "Ping check timed out" }
  | .fileNotFound msg =>
      -- ping.py has no FileNotFoundError clause; `except Exception` catches it
      { status := .failed, findings := 0, severity := .info,
        dataError := some msg }
  | .raised msg =>
      { status := .failed, findings := 0, severity := .info,
        dataError := some msg }

/-- The SECURITY_HEADERS list of headers.py. -/
def SECURITY_HEADERS : List String :=
  ["Strict-Transport-Security", "Content-Security-Policy", "X-Frame-Options",
   "X-Content-Type-Options", "X-XSS-Protection", "Referrer-Policy",
   "Permissions-Policy"]

/-- Header names parsed from curl output by headers.py: for each line holding
a colon, the trimmed text before the first colon. -/
def parsedHeaderKeys (stdout : String) : List String :=
  (stdout.splitOn "\n").filterMap fun line =>
    match line.splitOn ":" with
    | key :: _ :: _ => some key.trim
    | _ => none

/-- Security headers missing from the parsed response headers. -/
def headers_missing (stdout : String) : List String :=
  SECURITY_HEADERS.filter (fun h => !(parsedHeaderKeys stdout).contains h)

/-- The findings-to-severity threshold chain of headers.py. -/
def headersSeverityOf (n : Nat) : Severity :=
  if 5 ≤ n then .high
  else if 3 ≤ n then .medium
  else if 0 < n then .low
  else .info

/-- Embedding of `headers_check` (src/workers/checks/headers.py). -/
def headers_check (target : String) (config : List (String × String))
    (env : SubprocOutcome) : CheckResult :=
  match env with
  | .completed rc stdout =>
      if rc ≠ 0 then
        { status := .failed, findings := 0, severity := .info,
          dataError := some "Failed to fetch headers" }
      else
        let n := (headers_missing stdout).length
        { status := .success, findings := n, severity := headersSeverityOf n }
  | .timedOut =>
      { status := .failed, findings := 0, severity := .info,
        dataError := some "Request timed out" }
  | .fileNotFound msg =>
      -- headers.py has no FileNotFoundError clause; `except Exception` catches it
      { status := .failed, findings := 0, severity := .info,
        dataError := some msg }
  | .raised msg =>
      { status := .failed, findings := 0, severity := .info,
        dataError := some msg }

/-- Embedding of `ssl_check` (src/workers/checks/ssl.py).  The issuer/subject
and validity-date regexes only populate payload keys; the findings list and
the severity variable are built exactly as in the source, including the
overwrite of `high` by `medium` when both substrings occur. -/
def ssl_check (target : String) (config : List (String × String))
    (env : SubprocOutcome) : CheckResult :=
  match env with
  | .completed rc stdout =>
      if rc ≠ 0 ∧ stdout = "" then
        { status := .failed, findings := 1, severity := .high,
          dataError := some "Failed to connect to SSL/TLS server" }
      else
        let hasVerifyError := containsSub stdout.toLower "verify error"
        let hasSelfSigned := containsSub stdout.toLower "self signed"
        let findings := (if hasVerifyError then 1 else 0) +
                        (if hasSelfSigned then 1 else 0)
        let severity := Severity.info
        let severity := if hasVerifyError then Severity.high else severity
        let severity := if hasSelfSigned then Severity.medium else severity
        { status := .success, findings := findings, severity := severity }
  | .timedOut =>
      { status := .failed, findings := 0, severity := .info,
        dataError := some "SSL check timed out" }
  | .fileNotFound msg =>
      -- ssl.py has no FileNotFoundError clause; `except Exception` catches it
      { status := .failed, findings := 0, severity := .info,
        dataError := some msg }
  | .raised msg =>
      { status := .failed, findings := 0, severity := .info,
        dataError := some msg }

/-- DNS record types queried by dns.py. -/
def DNS_RECORD_TYPES : List String :=
  ["A", "AAAA", "MX", "NS", "TXT", "SOA", "CNAME"]

/-- Record values dns.py extracts from one dig invocation: the non-empty
trimmed lines of the trimmed stdout. -/
def dnsRecordValues (stdout : String) : List String :=
  ((stdout.trim.splitOn "\n").map String.trim).filter (fun l => !l.isEmpty)

/-- Findings contributed by one record-type query of dns.py.  Timeouts and
exceptions of an individual query are logged and swallowed, contributing
nothing. -/
def dnsRecordFindings (o : SubprocOutcome) : Nat :=
  match o with
  | .completed rc stdout =>
      if rc = 0 ∧ ¬ stdout.trim = "" then (dnsRecordValues stdout).length else 0
  | _ => 0

/-- Zone-transfer vulnerability test of dns.py; exceptions are swallowed. -/
def dnsZoneVulnerable (o : SubprocOutcome) : Bool :=
  match o with
  | .completed rc stdout => rc == 0 && !(containsSub stdout "Transfer failed")
  | _ => false

/-- Embedding of `dns_check` (src/workers/checks/dns.py).  `recordRun` gives
the dig outcome per record type, `zoneRun` the outcome of the axfr probe.
Every raising operation of the body sits inside an inner handler that
swallows the failure, so the outer `except Exception` clause of the source is
unreachable and the function always reports success. -/
def dns_check (target : String) (config : List (String × String))
    (recordRun : String → SubprocOutcome) (zoneRun : SubprocOutcome) :
    CheckResult :=
  let base := (DNS_RECORD_TYPES.map (fun t => dnsRecordFindings (recordRun t))).sum
  let vuln := dnsZoneVulnerable zoneRun
  let findings := base + (if vuln then 1 else 0)
  { status := .success, findings := findings,
    severity := if vuln then .high else .info }

/-- One `<port>` element of the nmap XML output; `stateAttr` is the state
attribute of its `<state>` child, or `none` when the child or the attribute
is absent (both are skipped by the source). -/
structure NmapPort where
  stateAttr : Option String
deriving DecidableEq, Repr

/-- The findings-to-severity threshold chain of portscan.py.  Note the final
branch is `low`, not `info`, even for zero open ports. -/
def portscanSeverityOf (n : Nat) : Severity :=
  if 20 < n then .high
  else if 10 < n then .medium
  else .low

/-- Embedding of `port_scan_check` (src/workers/checks/portscan.py).  The XML
parse of stdout is abstracted by `xml`: `none` models `ET.ParseError`, and
`some ports` the list of `<port>` elements found. -/
def port_scan_check (target : String) (config : List (String × String))
    (env : SubprocOutcome) (xml : Option (List NmapPort)) : CheckResult :=
  match env with
  | .completed rc _stdout =>
      if rc ≠ 0 then
        { status := .failed, findings := 0, severity := .info,
          dataError := some "nmap scan failed" }
      else
        match xml with
        | none =>
            { status := .failed, findings := 0, severity := .info,
              dataError := some "Failed to parse nmap output" }
        | some ports =>
            let n := (ports.filter (fun p => p.stateAttr == some "open")).length
            { status := .success, findings := n,
              severity := portscanSeverityOf n }
  | .timedOut =>
      { status := .failed, findings := 0, severity := .info,
        dataError := some "Port scan timed out" }
  | .fileNotFound _ =>
      { status := .failed, findings := 0, severity := .info,
        dataError := some "nmap not installed" }
  | .raised msg =>
      { status := .failed, findings := 0, severity := .info,
        dataError := some msg }

/-- The findings-to-severity threshold chain of bruteforce.py. -/
def bruteforceSeverityOf (n : Nat) : Severity :=
  if 20 < n then .medium
  else if 10 < n then .low
  else .info

/-- Python str.split() with no argument, restricted to one line: split on
runs of intra-line ASCII whitespace (space, tab, CR, VT, FF — the newline
case cannot occur inside a line) and drop empty parts. -/
def pySplitWhitespace (line : String) : List String :=
  (line.split fun c =>
      c == ' ' || c == '\t' || c == '\r' || c == '\x0b' || c == '\x0c').filter
    (fun p => !p.isEmpty)

/-- Directories bruteforce.py counts from gobuster stdout: lines that are
non-blank, do not start with an equals sign, and split into at least two
whitespace-separated parts. -/
def gobusterFoundCount (stdout : String) : Nat :=
  ((stdout.splitOn "\n").filter fun line =>
      !line.trim.isEmpty && !(line.startsWith "=") &&
      2 ≤ (pySplitWhitespace line).length).length

/-- Embedding of `bruteforce_check` (src/workers/checks/bruteforce.py).  The
wordlist fallback only affects which file is passed to gobuster (payload
data); a failure while writing the fallback wordlist is an `Exception` and is
covered by the `raised` case.  The source parses stdout without consulting
the return code. -/
def bruteforce_check (target : String) (config : List (String × String))
    (env : SubprocOutcome) : CheckResult :=
  match env with
  | .completed _rc stdout =>
      let n := gobusterFoundCount stdout
      { status := .success, findings := n, severity := bruteforceSeverityOf n }
  | .timedOut =>
      { status := .failed, findings := 0, severity := .info,
        dataError := some "Brute-force scan timed out" }
  | .fileNotFound _ =>
      { status := .failed, findings := 0, severity := .info,
        dataError := some "gobuster not installed" }
  | .raised msg =>
      { status := .failed, findings := 0, severity := .info,
        dataError := some msg }

/- ### IEEE-754 double-precision progress arithmetic

Both executors compute the progress percentage with Python float arithmetic:
int(((i + 1) / total_checks) * 100) in scan_worker.py and
int((completed_checks / total_checks) * 100) in tasks.py.  CPython evaluates
the int/int true division as the correctly rounded (round-to-nearest,
ties-to-even) binary64 value of the exact quotient, multiplies by the exactly
representable 100 with the product again correctly rounded, and int()
truncates toward zero.  The model below implements correctly rounded binary64
values over ℚ: `rhe` is round-half-to-even to an integer, and `roundDouble q`
rounds a positive rational to 53 significant bits.  Subnormals and overflow
are not modelled; the quotients that occur lie in (0, 1] and the products in
(0, 100], well inside the normal range (subnormal rounding would differ only
for jobs with more than 2^1021 checks). -/

/-- Round a rational to an integer, half-to-even (IEEE-754 default tie
breaking). -/
def rhe (q : ℚ) : ℤ :=
  if q - ⌊q⌋ < 1/2 then ⌊q⌋
  else if 1/2 < q - ⌊q⌋ then ⌊q⌋ + 1
  else if ⌊q⌋ % 2 = 0 then ⌊q⌋ else ⌊q⌋ + 1

/-- The correctly rounded binary64 value of a rational: the significand
q * 2^(52-e) (with e the binary exponent, so the scaled value lies in
[2^52, 2^53)) is rounded half-to-even and scaled back.  Non-positive inputs
map to 0; only 0 and positive values occur in the progress computation. -/
def roundDouble (q : ℚ) : ℚ :=
  if q ≤ 0 then 0
  else (rhe (q * 2 ^ ((52:ℤ) - Int.log 2 q)) : ℚ) * 2 ^ (Int.log 2 q - 52)

/-- The progress value both executors persist after `k` of `n` counted
checks: the Python float expression int((k / n) * 100) — division correctly
rounded to binary64, multiplication by the exact 100 correctly rounded,
truncation toward zero.  (The executors only evaluate it with 1 ≤ k ≤ n; the
n = 0 case of the model is unreachable because the loop body does not run.) -/
def pyProgress (k n : Nat) : Nat :=
  (⌊roundDouble (roundDouble ((k : ℚ) / (n : ℚ)) * 100)⌋).toNat

/- ### Polling worker (src/workers/scan_worker.py) -/

/-- Check names registered in the check_map of `execute_check`
(scan_worker.py) and in the check_functions dictionary of `execute_scan`
(tasks.py); the two dictionaries register the same names. -/
def knownChecks : List String :=
  ["ping", "portscan", "headers", "ssl", "dns", "bruteforce"]

/-- Result synthesized by `execute_check` for a name missing from check_map. -/
def unknownCheckResult (name : String) : CheckResult :=
  { status := .error, findings := 0, severity := .info,
    dataError := some ("Unknown check: " ++ name) }

/-- Embedding of `execute_check` (scan_worker.py).  The adapter invocation is
abstracted by its outcome `call`: the returned result dictionary, or the text
of an exception the call raised (converted to an error result by the
handler). -/
def execute_check (name : String) (call : PyOutcome CheckResult) : CheckResult :=
  if name ∈ knownChecks then
    match call with
    | .ok r => r
    | .raised msg =>
        { status := .error, findings := 0, severity := .info,
          dataError := some msg }
  else unknownCheckResult name

/-- One persisted effect of `process_scan`: an `update_scan_status` call with
its status and optional progress argument, or a `save_scan_result` insert. -/
inductive ScanEffect where
  | update (st : JobStatus) (progressParam : Option Nat)
  | save (check : String) (result : CheckResult)
deriving DecidableEq, Repr

/-- The check loop of `process_scan`: for the check at position `i` it saves
the result of `execute_check` and then persists the progress value
`int(((i + 1) / total) * 100)`, evaluated in double precision as
`pyProgress (i + 1) total`. -/
def scanLoop (total : Nat) (call : Nat → PyOutcome CheckResult) :
    Nat → List String → List ScanEffect
  | _, [] => []
  | i, name :: rest =>
      .save name (execute_check name (call i)) ::
      .update .running (some (pyProgress (i + 1) total)) ::
      scanLoop total call (i + 1) rest

/-- Embedding of `process_scan` (scan_worker.py) as the list of persisted
effects.  `url` is the scan row's url column (`none` covers NULL and the
empty string, both falsy in Python); `targetHostname` is the hostname the
targets-table lookup returns, `none` when the row is missing. -/
def process_scan (url : Option String) (targetHostname : Option String)
    (checks : List String) (call : Nat → PyOutcome CheckResult) :
    List ScanEffect :=
  match (match url with | some u => some u | none => targetHostname) with
  | none => [.update .failed none]
  | some _target =>
      .update .running (some 0) ::
      (scanLoop checks.length call 0 checks ++ [.update .completed none])

/-- The scan_jobs columns `update_scan_status` (scan_worker.py) can touch.
The id, target and checks columns are never written by the worker. -/
structure JobRow where
  status : JobStatus
  progress : Nat
  startedAt : Option Nat
  completedAt : Option Nat
deriving DecidableEq, Repr

/-- Embedding of `update_scan_status` (scan_worker.py) as a row transform:
running sets status, progress (`progress or 0`, so a missing argument falls
back to 0) and started_at; completed sets status, progress 100 and
completed_at; failed sets status and completed_at only; any other status
sets status and progress. -/
def update_scan_status (row : JobRow) (status : JobStatus)
    (progress : Option Nat) (now : Nat) : JobRow :=
  match status with
  | .running =>
      { row with status := .running, progress := progress.getD 0,
                 startedAt := some now }
  | .completed =>
      { row with status := .completed, progress := 100,
                 completedAt := some now }
  | .failed =>
      { row with status := .failed, completedAt := some now }
  | .queued =>
      { row with status := .queued, progress := progress.getD 0 }

/-- Job row states attained after each persisted status update of an effect
list, starting from `row` (result inserts touch a different table and leave
the job row unchanged).  The wall-clock timestamp is irrelevant to every
property and is passed as 0. -/
def rowTrace (row : JobRow) : List ScanEffect → List JobRow
  | [] => []
  | .update st pp :: rest =>
      let r := update_scan_status row st pp 0
      r :: rowTrace r rest
  | .save _ _ :: rest => rowTrace row rest

/-- A freshly created scan job row: queued, progress 0, no timestamps. -/
def initialRow : JobRow :=
  { status := .queued, progress := 0, startedAt := none, completedAt := none }

/-- The (check name, result) pairs inserted into scan_results, in order. -/
def savedResults : List ScanEffect → List (String × CheckResult)
  | [] => []
  | .save n r :: rest => (n, r) :: savedResults rest
  | .update _ _ :: rest => savedResults rest

/-- The statuses passed to `update_scan_status`, in order. -/
def statusUpdates : List ScanEffect → List JobStatus
  | [] => []
  | .update st _ :: rest => st :: statusUpdates rest
  | .save _ _ :: rest => statusUpdates rest

/-- The explicit progress arguments passed to `update_scan_status`, in
order. -/
def progressParams : List ScanEffect → List Nat
  | [] => []
  | .update _ (some p) :: rest => p :: progressParams rest
  | .update _ none :: rest => progressParams rest
  | .save _ _ :: rest => progressParams rest

/-- The elements of a list paired with their position, starting at `i`. -/
def withIndexFrom (i : Nat) : List String → List (Nat × String)
  | [] => []
  | a :: rest => (i, a) :: withIndexFrom (i + 1) rest

/- ### Celery task (src/workers/tasks.py) -/

/-- One persisted effect of `execute_scan` (tasks.py): an
`update_scan_status` call, an `update_scan_progress` call, or a
`store_scan_result` insert with the fields tasks.py passes. -/
inductive TaskEffect where
  | setStatus (st : JobStatus)
  | setProgress (p : Nat)
  | store (check : String) (resStatus : CheckStatus) (findings : Nat)
      (severity : Severity)
deriving DecidableEq, Repr

/-- The check loop of `execute_scan` (tasks.py).  A name missing from
check_functions is skipped with `continue`: no result row, no progress
update, and the completed counter is not incremented.  A known check whose
invocation returns is stored with status hard-coded to success and the
findings/severity the adapter reported; an invocation that raises is stored
as failed, findings 0, severity info. -/
def tasksCheckLoop (total : Nat) (call : Nat → PyOutcome CheckResult) :
    Nat → Nat → List String → List TaskEffect
  | _, _, [] => []
  | completed, idx, name :: rest =>
      if name ∈ knownChecks then
        (match call idx with
         | .ok r => TaskEffect.store name .success r.findings r.severity
         | .raised _ => TaskEffect.store name .failed 0 .info) ::
        TaskEffect.setProgress (pyProgress (completed + 1) total) ::
        tasksCheckLoop total call (completed + 1) (idx + 1) rest
      else
        tasksCheckLoop total call completed (idx + 1) rest

/-- Embedding of the normal (no persistence error) run of `execute_scan`
(tasks.py) as its list of persisted effects. -/
def execute_scan (checks : List String) (call : Nat → PyOutcome CheckResult) :
    List TaskEffect :=
  TaskEffect.setStatus .running :: TaskEffect.setProgress 0 ::
    (tasksCheckLoop checks.length call 0 0 checks ++
     [TaskEffect.setStatus .completed, TaskEffect.setProgress 100])

/-- The check names of the stored result rows, in order. -/
def storedChecks : List TaskEffect → List String
  | [] => []
  | .store n _ _ _ :: rest => n :: storedChecks rest
  | .setStatus _ :: rest => storedChecks rest
  | .setProgress _ :: rest => storedChecks rest

/-- The execution statuses of the stored result rows, in order. -/
def storedStatuses : List TaskEffect → List CheckStatus
  | [] => []
  | .store _ st _ _ :: rest => st :: storedStatuses rest
  | .setStatus _ :: rest => storedStatuses rest
  | .setProgress _ :: rest => storedStatuses rest

/-- The `update_scan_progress` values, in order. -/
def taskProgressValues : List TaskEffect → List Nat
  | [] => []
  | .setProgress p :: rest => p :: taskProgressValues rest
  | .setStatus _ :: rest => taskProgressValues rest
  | .store _ _ _ _ :: rest => taskProgressValues rest

/-- The `update_scan_status` values, in order. -/
def taskStatusValues : List TaskEffect → List JobStatus
  | [] => []
  | .setStatus st :: rest => st :: taskStatusValues rest
  | .setProgress _ :: rest => taskStatusValues rest
  | .store _ _ _ _ :: rest => taskStatusValues rest

/- ### Job-claiming protocol (get_queued_scans + update_scan_status + commit)

The polling worker claims work with

  SELECT ... FROM scan_jobs WHERE status = 'queued'
  ORDER BY created_at ASC LIMIT 1 FOR UPDATE SKIP LOCKED

on its connection's open transaction, then runs process_scan, whose first
`update_scan_status` call executes an UPDATE (to running, or to failed when
the target row is missing) and commits, releasing the row lock.  Under READ
COMMITTED, a concurrent claimer sees the committed status of every row and
skips rows locked by another transaction.  The protocol is modelled as a
labelled transition system; transaction aborts (which roll the claim back
and re-queue the job) are outside the modelled protocol. -/

/-- Program counter of one worker process inside the claim protocol. -/
inductive WorkerPC where
  | idle
  | claimedJob (jobId : Nat)
  | updatedJob (jobId : Nat)
deriving DecidableEq, Repr

/-- One scan_jobs row as seen by the claim protocol: creation time, the
committed status visible to other connections, the pending uncommitted
status written by the lock holder, and the lock. -/
structure JobRec where
  created : Nat
  committedStatus : JobStatus
  pendingStatus : Option JobStatus
  lockedBy : Option Nat
deriving DecidableEq, Repr

/-- Shared store state plus the per-worker program counters; `events`
records every successful claim as a (worker, job) pair. -/
structure SysState where
  ids : List Nat
  job : Nat → JobRec
  wpc : Nat → WorkerPC
  events : List (Nat × Nat)

/-- A row the SELECT can return: committed status queued and not locked
(FOR UPDATE SKIP LOCKED skips locked rows). -/
def Eligible (s : SysState) (j : Nat) : Prop :=
  j ∈ s.ids ∧ (s.job j).committedStatus = .queued ∧ (s.job j).lockedBy = none

/-- The rows the SELECT's WHERE clause and SKIP LOCKED leave visible. -/
def eligibleIds (s : SysState) : List Nat :=
  s.ids.filter fun j =>
    decide ((s.job j).committedStatus = .queued ∧ (s.job j).lockedBy = none)

/-- ORDER BY created_at ASC LIMIT 1 over a candidate list: the element with
the least creation time (first such element on ties). -/
def pickOldest (s : SysState) : List Nat → Option Nat
  | [] => none
  | j :: rest =>
      match pickOldest s rest with
      | none => some j
      | some k =>
          if (s.job j).created ≤ (s.job k).created then some j else some k

/-- Embedding of `get_queued_scans` (scan_worker.py): the oldest eligible
row, or none. -/
def selectOldest (s : SysState) : Option Nat :=
  pickOldest s (eligibleIds s)

/-- Number of times job `j` has been handed to a claimer. -/
def EventsFor (s : SysState) (j : Nat) : Nat :=
  (s.events.filter (fun e => e.2 == j)).length

/-- State after worker `w` claims job `j`: the row is locked, the worker
holds the job, and the hand-out is recorded. -/
def claimPost (s : SysState) (w j : Nat) : SysState :=
  { s with
    job := Function.update s.job j { s.job j with lockedBy := some w },
    wpc := Function.update s.wpc w (.claimedJob j),
    events := s.events ++ [(w, j)] }

/-- State after the claiming worker executes the UPDATE of its first
`update_scan_status` call (to running, or to failed when the target row is
missing): the new status is pending, invisible to other connections. -/
def setRunPost (s : SysState) (w j : Nat) (st : JobStatus) : SysState :=
  { s with
    job := Function.update s.job j { s.job j with pendingStatus := some st },
    wpc := Function.update s.wpc w (.updatedJob j) }

/-- State after the claiming worker commits: the pending status becomes
committed and the row lock is released. -/
def commitPost (s : SysState) (w j : Nat) : SysState :=
  { s with
    job := Function.update s.job j
      { s.job j with
        committedStatus :=
          (s.job j).pendingStatus.getD (s.job j).committedStatus,
        pendingStatus := none,
        lockedBy := none },
    wpc := Function.update s.wpc w .idle }

/-- State after a later autocommitted status update of the job's owner
(progress updates keep running; the terminal update sets completed or
failed). -/
def laterPost (s : SysState) (j : Nat) (st : JobStatus) : SysState :=
  { s with
    job := Function.update s.job j
      { s.job j with committedStatus := st } }

/-- Interleaved steps of the claim protocol across all workers. -/
inductive Step : SysState → SysState → Prop where
  | claim (s : SysState) (w j : Nat) (hw : s.wpc w = .idle)
      (hs : selectOldest s = some j) : Step s (claimPost s w j)
  | setRun (s : SysState) (w j : Nat) (st : JobStatus)
      (hw : s.wpc w = .claimedJob j) (hst : st = .running ∨ st = .failed) :
      Step s (setRunPost s w j st)
  | commit (s : SysState) (w j : Nat) (hw : s.wpc w = .updatedJob j) :
      Step s (commitPost s w j)
  | later (s : SysState) (j : Nat) (st : JobStatus)
      (hj : (s.job j).committedStatus = .running)
      (hst : st = .running ∨ st = .completed ∨ st = .failed) :
      Step s (laterPost s j st)

/-- Initial backlog: every job queued, unlocked, uncommitted-nothing; every
worker idle; no hand-outs yet. -/
def initState (ids : List Nat) (created : Nat → Nat) : SysState :=
  { ids := ids,
    job := fun j =>
      { created := created j, committedStatus := .queued,
        pendingStatus := none, lockedBy := none },
    wpc := fun _ => .idle,
    events := [] }

/-- States the protocol can reach from the initial backlog. -/
def Reachable (ids : List Nat) (created : Nat → Nat) (s : SysState) : Prop :=
  Relation.ReflTransGen Step (initState ids created) s

/-- Protocol invariant: every job was handed out at most once; a handed-out
job is never again visible to a claimer; a held job is locked by its holder;
after the holder's UPDATE the pending status is never queued. -/
structure Inv (s : SysState) : Prop where
  once : ∀ j, EventsFor s j ≤ 1
  window : ∀ j, 1 ≤ EventsFor s j → ¬ Eligible s j
  owner : ∀ w j, (s.wpc w = .claimedJob j ∨ s.wpc w = .updatedJob j) →
    (s.job j).lockedBy = some w
  pend : ∀ w j, s.wpc w = .updatedJob j →
    ∃ st, (s.job j).pendingStatus = some st ∧ st ≠ JobStatus.queued

/-- A concrete three-job backlog with creation times 5, 3 and 9. -/
def exampleBacklog : SysState :=
  { ids := [0, 1, 2],
    job := fun j =>
      { created := if j = 0 then 5 else if j = 1 then 3 else 9,
        committedStatus := .queued, pendingStatus := none, lockedBy := none },
    wpc := fun _ => .idle,
    events := [] }

/- ### Definition modelled from the spec, for comparison (claim C5) -/

/-- Modelled from the spec: the progress formula "round(100 * completed /
total)" of the Scan Executor section, with Python's round-half-to-even
semantics, as `specRound (100 * completed) total`.  The source code is
compared against this definition; it is not translated from the source. -/
def specRound (num den : Nat) : Nat :=
  let q := num / den
  let r := num % den
  if 2 * r < den then q
  else if den < 2 * r then q + 1
  else if q % 2 = 0 then q
  else q + 1

/-! ## Theorems -/

/-- C9: a job whose target cannot be resolved (url column NULL or empty and
no matching targets row) transitions directly to failed: the only persisted
status update is failed, no checks execute and zero CheckResults are
written. -/
theorem C9_unresolved_target_fails_without_checks (checks : List String)
    (call : Nat → PyOutcome CheckResult) :
    process_scan none none checks call = [ScanEffect.update .failed none] ∧
    savedResults (process_scan none none checks call) = [] ∧
    statusUpdates (process_scan none none checks call) = [JobStatus.failed] :=
  ⟨rfl, rfl, rfl⟩

/-- C10: the update to failed modifies only the status and completed_at
columns — in particular progress and started_at are left unchanged — whereas
the update to completed forces progress to exactly 100. -/
theorem C10_failed_update_frame (row : JobRow) (p : Option Nat) (now : Nat) :
    (update_scan_status row .failed p now).progress = row.progress ∧
    (update_scan_status row .failed p now).startedAt = row.startedAt ∧
    (update_scan_status row .failed p now).status = JobStatus.failed ∧
    (update_scan_status row .failed p now).completedAt = some now ∧
    (update_scan_status row .completed p now).progress = 100 :=
  ⟨rfl, rfl, rfl, rfl, rfl⟩

/-- C3 counterexample: the ping adapter's TimeoutExpired handler returns a
CheckResult with findings 1 and severity medium, not findings 0 and severity
info as claimed; the claim as stated is false at this input. -/
theorem C3_counterexample :
    (ping_check "example.com" [] .timedOut).status = .failed ∧
    ¬ ((ping_check "example.com" [] .timedOut).findings = 0 ∧
       (ping_check "example.com" [] .timedOut).severity = .info) := by
  decide

/-- C3 amended: no adapter's run ever raises — every internal failure is
caught and converted into a returned CheckResult (the adapters are total
functions of their environment).  Caught subprocess timeouts, missing
executables and unexpected exceptions, curl and nmap nonzero exits and nmap
parse failures are reported with status failed, findings 0 and severity info,
except ping's timeout branch (findings 1, severity medium) and ssl's
failed-connection branch (findings 1, severity high).  Three failure modes
are not reported as failed at all: ping reports an unreachable target
(nonzero ping exit) as status success with findings 1 and severity high; the
dns adapter swallows every per-query timeout or error inside inner handlers
and always reports status success; and the bruteforce adapter ignores the
gobuster exit code, reporting status success for whatever output a failed run
produced. -/
theorem C3_amended_failure_conversion :
    (∀ t c rc out, rc ≠ 0 → ping_check t c (.completed rc out) =
      { status := .success, findings := 1, severity := .high,
        dataError := some "Target is not reachable" }) ∧
    (∀ t c rc out, bruteforce_check t c (.completed rc out) =
      { status := .success, findings := gobusterFoundCount out,
        severity := bruteforceSeverityOf (gobusterFoundCount out),
        dataError := none }) ∧
    (∀ t c, ping_check t c .timedOut =
      { status := .failed, findings := 1, severity := .medium,
        dataError := some "Ping check timed out" }) ∧
    (∀ t c m, ping_check t c (.fileNotFound m) =
      { status := .failed, findings := 0, severity := .info,
        dataError := some m }) ∧
    (∀ t c m, ping_check t c (.raised m) =
      { status := .failed, findings := 0, severity := .info,
        dataError := some m }) ∧
    (∀ t c rc out, rc ≠ 0 → headers_check t c (.completed rc out) =
      { status := .failed, findings := 0, severity := .info,
        dataError := some "Failed to fetch headers" }) ∧
    (∀ t c, headers_check t c .timedOut =
      { status := .failed, findings := 0, severity := .info,
        dataError := some "Request timed out" }) ∧
    (∀ t c m, headers_check t c (.fileNotFound m) =
      { status := .failed, findings := 0, severity := .info,
        dataError := some m }) ∧
    (∀ t c m, headers_check t c (.raised m) =
      { status := .failed, findings := 0, severity := .info,
        dataError := some m }) ∧
    (∀ t c rc, rc ≠ 0 → ssl_check t c (.completed rc "") =
      { status := .failed, findings := 1, severity := .high,
        dataError := some "Failed to connect to SSL/TLS server" }) ∧
    (∀ t c, ssl_check t c .timedOut =
      { status := .failed, findings := 0, severity := .info,
        dataError := some "SSL check timed out" }) ∧
    (∀ t c m, ssl_check t c (.fileNotFound m) =
      { status := .failed, findings := 0, severity := .info,
        dataError := some m }) ∧
    (∀ t c m, ssl_check t c (.raised m) =
      { status := .failed, findings := 0, severity := .info,
        dataError := some m }) ∧
    (∀ t c rr zr, (dns_check t c rr zr).status = .success) ∧
    (∀ t c rc out xml, rc ≠ 0 → port_scan_check t c (.completed rc out) xml =
      { status := .failed, findings := 0, severity := .info,
        dataError := some "nmap scan failed" }) ∧
    (∀ t c out, port_scan_check t c (.completed 0 out) none =
      { status := .failed, findings := 0, severity := .info,
        dataError := some "Failed to parse nmap output" }) ∧
    (∀ t c xml, port_scan_check t c .timedOut xml =
      { status := .failed, findings := 0, severity := .info,
        dataError := some "Port scan timed out" }) ∧
    (∀ t c m xml, port_scan_check t c (.fileNotFound m) xml =
      { status := .failed, findings := 0, severity := .info,
        dataError := some "nmap not installed" }) ∧
    (∀ t c m xml, port_scan_check t c (.raised m) xml =
      { status := .failed, findings := 0, severity := .info,
        dataError := some m }) ∧
    (∀ t c, bruteforce_check t c .timedOut =
      { status := .failed, findings := 0, severity := .info,
        dataError := some "Brute-force scan timed out" }) ∧
    (∀ t c m, bruteforce_check t c (.fileNotFound m) =
      { status := .failed, findings := 0, severity := .info,
        dataError := some "gobuster not installed" }) ∧
    (∀ t c m, bruteforce_check t c (.raised m) =
      { status := .failed, findings := 0, severity := .info,
        dataError := some m }) := by
  refine ⟨fun t c rc out h => ?_, fun t c rc out => rfl,
    fun t c => rfl, fun t c m => rfl, fun t c m => rfl,
    fun t c rc out h => ?_, fun t c => rfl, fun t c m => rfl, fun t c m => rfl,
    fun t c rc h => ?_, fun t c => rfl, fun t c m => rfl, fun t c m => rfl,
    fun t c rr zr => rfl, fun t c rc out xml h => ?_, fun t c out => rfl,
    fun t c xml => rfl, fun t c m xml => rfl, fun t c m xml => rfl,
    fun t c => rfl, fun t c m => rfl, fun t c m => rfl⟩
  · simp [ping_check, h]
  · simp [headers_check, h]
  · simp [ssl_check, h]
  · cases xml <;> simp [port_scan_check, h]

/-- C3 amended, witness: the hypothesis-bearing conjuncts applied at
return code 1. -/
theorem C3_amended_witness :
    ping_check "h" [] (.completed 1 "out") =
      { status := .success, findings := 1, severity := .high,
        dataError := some "Target is not reachable" } ∧
    headers_check "h" [] (.completed 1 "oops") =
      { status := .failed, findings := 0, severity := .info,
        dataError := some "Failed to fetch headers" } ∧
    ssl_check "h" [] (.completed 1 "") =
      { status := .failed, findings := 1, severity := .high,
        dataError := some "Failed to connect to SSL/TLS server" } ∧
    port_scan_check "h" [] (.completed 1 "") none =
      { status := .failed, findings := 0, severity := .info,
        dataError := some "nmap scan failed" } := by
  have h := C3_amended_failure_conversion
  exact ⟨h.1 "h" [] 1 "out" (by decide),
         h.2.2.2.2.2.1 "h" [] 1 "oops" (by decide),
         h.2.2.2.2.2.2.2.2.2.1 "h" [] 1 (by decide),
         h.2.2.2.2.2.2.2.2.2.2.2.2.2.2.1 "h" [] 1 "" none (by decide)⟩

/-- C7 counterexample: the ping adapter maps the same findings count 1 to
severity high when the target is unreachable (return code nonzero) and to
severity medium on a timeout, so its findings-to-severity mapping is not
deterministic. -/
theorem C7_counterexample :
    (ping_check "h" [] (.completed 1 "")).findings =
      (ping_check "h" [] .timedOut).findings ∧
    (ping_check "h" [] (.completed 1 "")).severity ≠
      (ping_check "h" [] .timedOut).severity := by
  decide

/-- Helper: the severity reported by headers_check is a function of the
findings count it reports. -/
theorem headers_check_severity (t : String) (c : List (String × String))
    (e : SubprocOutcome) :
    (headers_check t c e).severity =
      headersSeverityOf (headers_check t c e).findings := by
  cases e with
  | completed rc out =>
      by_cases h : rc ≠ 0
      · simp [headers_check, h, headersSeverityOf]
      · simp [headers_check, h]
  | timedOut => simp [headers_check, headersSeverityOf]
  | fileNotFound m => simp [headers_check, headersSeverityOf]
  | raised m => simp [headers_check, headersSeverityOf]

/-- Helper: the severity reported by bruteforce_check is a function of the
findings count it reports. -/
theorem bruteforce_check_severity (t : String) (c : List (String × String))
    (e : SubprocOutcome) :
    (bruteforce_check t c e).severity =
      bruteforceSeverityOf (bruteforce_check t c e).findings := by
  cases e with
  | completed rc out => simp [bruteforce_check]
  | timedOut => simp [bruteforce_check, bruteforceSeverityOf]
  | fileNotFound m => simp [bruteforce_check, bruteforceSeverityOf]
  | raised m => simp [bruteforce_check, bruteforceSeverityOf]

/-- C7 amended: for the headers and bruteforce adapters the
findings-to-severity mapping is deterministic — equal findings counts always
yield equal severities across invocations; the ping, ssl, dns and portscan
adapters additionally derive severity from the failure branch or a risk
signal, so equal findings counts can yield different severities there. -/
theorem C7_amended_headers_bruteforce_deterministic
    (t1 t2 t3 t4 : String) (c1 c2 c3 c4 : List (String × String))
    (e1 e2 e3 e4 : SubprocOutcome)
    (hh : (headers_check t1 c1 e1).findings = (headers_check t2 c2 e2).findings)
    (hb : (bruteforce_check t3 c3 e3).findings =
      (bruteforce_check t4 c4 e4).findings) :
    (headers_check t1 c1 e1).severity = (headers_check t2 c2 e2).severity ∧
    (bruteforce_check t3 c3 e3).severity =
      (bruteforce_check t4 c4 e4).severity := by
  constructor
  · rw [headers_check_severity, headers_check_severity, hh]
  · rw [bruteforce_check_severity, bruteforce_check_severity, hb]

/-- C7 amended, witness: two pairs of invocations with equal findings
counts. -/
theorem C7_amended_witness :
    (headers_check "a" [] .timedOut).severity =
      (headers_check "b" [] (.raised "x")).severity ∧
    (bruteforce_check "a" [] .timedOut).severity =
      (bruteforce_check "b" [] (.fileNotFound "m")).severity :=
  C7_amended_headers_bruteforce_deterministic "a" "b" "a" "b" [] [] [] []
    .timedOut (.raised "x") .timedOut (.fileNotFound "m")
    (by decide) (by decide)

/-- Helper: savedResults distributes over list append. -/
theorem savedResults_append (l1 l2 : List ScanEffect) :
    savedResults (l1 ++ l2) = savedResults l1 ++ savedResults l2 := by
  induction l1 with
  | nil => rfl
  | cons e rest ih => cases e <;> simp [savedResults, ih]

/-- Helper: statusUpdates distributes over list append. -/
theorem statusUpdates_append (l1 l2 : List ScanEffect) :
    statusUpdates (l1 ++ l2) = statusUpdates l1 ++ statusUpdates l2 := by
  induction l1 with
  | nil => rfl
  | cons e rest ih => cases e <;> simp [statusUpdates, ih]

/-- Helper: progressParams distributes over list append. -/
theorem progressParams_append (l1 l2 : List ScanEffect) :
    progressParams (l1 ++ l2) = progressParams l1 ++ progressParams l2 := by
  induction l1 with
  | nil => rfl
  | cons e rest ih =>
      cases e with
      | update st pp => cases pp <;> simp [progressParams, ih]
      | save n r => simp [progressParams, ih]

/-- Helper: the results the check loop of process_scan saves are exactly one
per check, in order, each the execute_check result at its position. -/
theorem savedResults_scanLoop (total : Nat)
    (call : Nat → PyOutcome CheckResult) :
    ∀ (checks : List String) (i : Nat),
    savedResults (scanLoop total call i checks) =
      (withIndexFrom i checks).map
        (fun p => (p.2, execute_check p.2 (call p.1))) := by
  intro checks
  induction checks with
  | nil => intro i; rfl
  | cons name rest ih =>
      intro i
      simp [scanLoop, savedResults, withIndexFrom, ih]

/-- Helper: the check loop of process_scan persists exactly one running
status update per check. -/
theorem statusUpdates_scanLoop (total : Nat)
    (call : Nat → PyOutcome CheckResult) :
    ∀ (checks : List String) (i : Nat),
    statusUpdates (scanLoop total call i checks) =
      List.replicate checks.length JobStatus.running := by
  intro checks
  induction checks with
  | nil => intro i; rfl
  | cons name rest ih =>
      intro i
      simp [scanLoop, statusUpdates, List.replicate, ih]

/-- Helper: the progress values the check loop of process_scan persists are
the double-precision truncated percentages, one per check, in order. -/
theorem progressParams_scanLoop (total : Nat)
    (call : Nat → PyOutcome CheckResult) :
    ∀ (checks : List String) (i : Nat),
    progressParams (scanLoop total call i checks) =
      (withIndexFrom i checks).map (fun p => pyProgress (p.1 + 1) total) := by
  intro checks
  induction checks with
  | nil => intro i; rfl
  | cons name rest ih =>
      intro i
      simp [scanLoop, progressParams, withIndexFrom, ih]

/-- Helper: withIndexFrom preserves length. -/
theorem withIndexFrom_length (checks : List String) :
    ∀ i, (withIndexFrom i checks).length = checks.length := by
  induction checks with
  | nil => intro i; rfl
  | cons name rest ih => intro i; simp [withIndexFrom, ih]

/-- Helper: storedChecks distributes over list append. -/
theorem storedChecks_append (l1 l2 : List TaskEffect) :
    storedChecks (l1 ++ l2) = storedChecks l1 ++ storedChecks l2 := by
  induction l1 with
  | nil => rfl
  | cons e rest ih => cases e <;> simp [storedChecks, ih]

/-- Helper: taskStatusValues distributes over list append. -/
theorem taskStatusValues_append (l1 l2 : List TaskEffect) :
    taskStatusValues (l1 ++ l2) = taskStatusValues l1 ++ taskStatusValues l2 := by
  induction l1 with
  | nil => rfl
  | cons e rest ih => cases e <;> simp [taskStatusValues, ih]

/-- Helper: taskProgressValues distributes over list append. -/
theorem taskProgressValues_append (l1 l2 : List TaskEffect) :
    taskProgressValues (l1 ++ l2) =
      taskProgressValues l1 ++ taskProgressValues l2 := by
  induction l1 with
  | nil => rfl
  | cons e rest ih => cases e <;> simp [taskProgressValues, ih]

/-- Helper: the Celery check loop stores one result row per known check
name, in order, and none for unknown names. -/
theorem storedChecks_tasksCheckLoop (call : Nat → PyOutcome CheckResult)
    (total : Nat) :
    ∀ (checks : List String) (completed idx : Nat),
    storedChecks (tasksCheckLoop total call completed idx checks) =
      checks.filter (fun n => decide (n ∈ knownChecks)) := by
  intro checks
  induction checks with
  | nil => intro completed idx; rfl
  | cons name rest ih =>
      intro completed idx
      by_cases h : name ∈ knownChecks
      · cases hc : call idx <;>
          simp [tasksCheckLoop, storedChecks, h, hc, List.filter, ih]
      · simp [tasksCheckLoop, storedChecks, h, List.filter, ih]

/-- Helper: the Celery check loop emits one progress update per known check
name and none for unknown names. -/
theorem taskProgressValues_tasksCheckLoop (call : Nat → PyOutcome CheckResult)
    (total : Nat) :
    ∀ (checks : List String) (completed idx : Nat),
    (taskProgressValues (tasksCheckLoop total call completed idx checks)).length =
      (checks.filter (fun n => decide (n ∈ knownChecks))).length := by
  intro checks
  induction checks with
  | nil => intro completed idx; rfl
  | cons name rest ih =>
      intro completed idx
      by_cases h : name ∈ knownChecks
      · cases hc : call idx <;>
          simp [tasksCheckLoop, taskProgressValues, h, hc, List.filter, ih]
      · simp [tasksCheckLoop, taskProgressValues, h, List.filter, ih]

/-- Helper: the Celery check loop emits no status updates. -/
theorem taskStatusValues_tasksCheckLoop (call : Nat → PyOutcome CheckResult)
    (total : Nat) :
    ∀ (checks : List String) (completed idx : Nat),
    taskStatusValues (tasksCheckLoop total call completed idx checks) = [] := by
  intro checks
  induction checks with
  | nil => intro completed idx; rfl
  | cons name rest ih =>
      intro completed idx
      by_cases h : name ∈ knownChecks
      · cases hc : call idx <;>
          simp [tasksCheckLoop, taskStatusValues, h, hc, ih]
      · simp [tasksCheckLoop, taskStatusValues, h, ih]

/-- C2 counterexample: for the Celery executor, a job whose check list is the
single element "unknown_check" produces zero stored CheckResults, not one per
element, refuting the claim as stated for this executor (the job still ends
completed). -/
theorem C2_counterexample :
    storedChecks (execute_scan ["unknown_check"]
      (fun _ => .ok { status := .success, findings := 0, severity := .info })) =
      [] ∧
    taskStatusValues (execute_scan ["unknown_check"]
      (fun _ => .ok { status := .success, findings := 0, severity := .info })) =
      [JobStatus.running, JobStatus.completed] ∧
    ([] : List String).length ≠ ["unknown_check"].length := by
  decide

/-- C2 amended: the polling executor (process_scan) writes exactly one
CheckResult per check-list element, in list order; a name not in the registry
yields the synthesized result with status error, findings 0, severity info,
and the job always reaches completed.  The Celery executor (execute_scan)
skips unknown names entirely — no CheckResult is written for them — writes
one CheckResult per known-named element in order, and still always reaches
completed. -/
theorem C2_amended_one_result_per_check
    (t : String) (lk : Option String) (checks : List String)
    (call : Nat → PyOutcome CheckResult) :
    savedResults (process_scan (some t) lk checks call) =
      (withIndexFrom 0 checks).map
        (fun p => (p.2, execute_check p.2 (call p.1))) ∧
    (savedResults (process_scan (some t) lk checks call)).length =
      checks.length ∧
    statusUpdates (process_scan (some t) lk checks call) =
      JobStatus.running ::
        (List.replicate checks.length JobStatus.running ++
         [JobStatus.completed]) ∧
    (∀ name c, name ∉ knownChecks →
       execute_check name c = unknownCheckResult name) ∧
    (∀ name, (unknownCheckResult name).status = .error ∧
       (unknownCheckResult name).findings = 0 ∧
       (unknownCheckResult name).severity = .info) ∧
    (∀ checks2 call2, storedChecks (execute_scan checks2 call2) =
       checks2.filter (fun n => decide (n ∈ knownChecks))) ∧
    (∀ checks2 call2, taskStatusValues (execute_scan checks2 call2) =
       [JobStatus.running, JobStatus.completed]) := by
  refine ⟨?_, ?_, ?_, ?_, ?_, ?_, ?_⟩
  · simp [process_scan, savedResults_append, savedResults_scanLoop,
      savedResults]
  · simp [process_scan, savedResults_append, savedResults_scanLoop,
      savedResults, withIndexFrom_length]
  · simp [process_scan, statusUpdates_append, statusUpdates_scanLoop,
      statusUpdates]
  · intro name c h
    simp [execute_check, h]
  · intro name
    exact ⟨rfl, rfl, rfl⟩
  · intro checks2 call2
    simp [execute_scan, storedChecks_append, storedChecks_tasksCheckLoop,
      storedChecks]
  · intro checks2 call2
    simp [execute_scan, taskStatusValues_append,
      taskStatusValues_tasksCheckLoop, taskStatusValues]

/-- C2 amended, witness: the one-result-per-element equation and the
synthesized unknown-check result at a concrete job. -/
theorem C2_amended_witness :
    savedResults (process_scan (some "h") none ["ping", "unknown_check"]
        (fun _ => .ok { status := .success, findings := 0, severity := .info })) =
      [("ping", { status := .success, findings := 0, severity := .info }),
       ("unknown_check", unknownCheckResult "unknown_check")] ∧
    execute_check "unknown_check"
        (.ok { status := .success, findings := 0, severity := .info }) =
      unknownCheckResult "unknown_check" := by
  have h := C2_amended_one_result_per_check "h" none ["ping", "unknown_check"]
    (fun _ => .ok { status := .success, findings := 0, severity := .info })
  refine ⟨?_, h.2.2.2.1 "unknown_check" _ (by decide)⟩
  rw [h.1]
  decide

/-- C4 counterexample: the Celery executor persists status success for an
adapter that gracefully returned status failed, and persists status failed
(not error) when the adapter raised — refuting both directions of the claim
for this executor. -/
theorem C4_counterexample :
    storedStatuses (execute_scan ["ping"]
      (fun _ => .ok { status := .failed, findings := 1, severity := .medium })) =
      [CheckStatus.success] ∧
    storedStatuses (execute_scan ["ping"] (fun _ => .raised "boom")) =
      [CheckStatus.failed] ∧
    CheckStatus.success ≠ CheckStatus.failed ∧
    CheckStatus.failed ≠ CheckStatus.error := by
  decide

/-- C4 amended: in the polling worker the persisted status is error exactly
when the adapter raised, and a graceful return is persisted with exactly the
result the adapter reported; in the Celery task a graceful return is always
stored with status success regardless of the reported status, and an adapter
exception is stored with status failed, findings 0, severity info. -/
theorem C4_amended_status_mapping :
    (∀ name r, name ∈ knownChecks → execute_check name (.ok r) = r) ∧
    (∀ name m, name ∈ knownChecks → execute_check name (.raised m) =
       { status := .error, findings := 0, severity := .info,
         dataError := some m }) ∧
    (∀ total call completed idx name rest, name ∈ knownChecks →
       tasksCheckLoop total call completed idx (name :: rest) =
         (match call idx with
          | .ok r => TaskEffect.store name .success r.findings r.severity
          | .raised _ => TaskEffect.store name .failed 0 .info) ::
         TaskEffect.setProgress (pyProgress (completed + 1) total) ::
         tasksCheckLoop total call (completed + 1) (idx + 1) rest) := by
  refine ⟨?_, ?_, ?_⟩
  · intro name r h
    simp [execute_check, h]
  · intro name m h
    simp [execute_check, h]
  · intro total call completed idx name rest h
    simp [tasksCheckLoop, h]

/-- C4 amended, witness: the mapping applied to the ping check with a
graceful return and with a raised exception. -/
theorem C4_amended_witness :
    execute_check "ping"
        (.ok { status := .failed, findings := 1, severity := .medium }) =
      { status := .failed, findings := 1, severity := .medium } ∧
    execute_check "ping" (.raised "boom") =
      { status := .error, findings := 0, severity := .info,
        dataError := some "boom" } :=
  ⟨C4_amended_status_mapping.1 "ping" _ (by decide),
   C4_amended_status_mapping.2.1 "ping" "boom" (by decide)⟩

/-- Helper: round-half-to-even is bounded below by the floor. -/
theorem rhe_ge_floor (q : ℚ) : ⌊q⌋ ≤ rhe q := by
  unfold rhe
  split
  · omega
  · split
    · omega
    · split <;> omega

/-- Helper: round-half-to-even is bounded above by the floor plus one. -/
theorem rhe_le_floor_add_one (q : ℚ) : rhe q ≤ ⌊q⌋ + 1 := by
  unfold rhe
  split
  · omega
  · split
    · omega
    · split <;> omega

/-- Helper: round-half-to-even is monotone. -/
theorem rhe_mono {q q' : ℚ} (h : q ≤ q') : rhe q ≤ rhe q' := by
  have hff : ⌊q⌋ ≤ ⌊q'⌋ := Int.floor_mono h
  rcases lt_or_eq_of_le hff with hlt | heq
  · calc rhe q ≤ ⌊q⌋ + 1 := rhe_le_floor_add_one q
      _ ≤ ⌊q'⌋ := hlt
      _ ≤ rhe q' := rhe_ge_floor q'
  · unfold rhe
    rw [← heq]
    by_cases h1 : q - ⌊q⌋ < 1/2
    · rw [if_pos h1]
      by_cases h2 : q' - ⌊q⌋ < 1/2
      · rw [if_pos h2]
      · rw [if_neg h2]
        by_cases h3 : 1/2 < q' - ⌊q⌋
        · rw [if_pos h3]; omega
        · rw [if_neg h3]; split <;> omega
    · rw [if_neg h1]
      have hr : (1:ℚ)/2 ≤ q - ⌊q⌋ := not_lt.mp h1
      have h2 : ¬ (q' - (⌊q⌋:ℚ) < 1/2) := by
        push_neg
        linarith
      rw [if_neg h2]
      by_cases h3 : 1/2 < q - ⌊q⌋
      · rw [if_pos h3]
        have h4 : 1/2 < q' - (⌊q⌋:ℚ) := by linarith
        rw [if_pos h4]
      · rw [if_neg h3]
        by_cases h4 : 1/2 < q' - (⌊q⌋:ℚ)
        · rw [if_pos h4]; split <;> omega
        · rw [if_neg h4]

/-- Helper: a correctly rounded double is non-negative. -/
theorem roundDouble_nonneg (q : ℚ) : 0 ≤ roundDouble q := by
  unfold roundDouble
  split
  · exact le_refl 0
  · rename_i hq
    push_neg at hq
    have hx : (0:ℚ) < q * 2 ^ ((52:ℤ) - Int.log 2 q) :=
      mul_pos hq (zpow_pos (by norm_num) _)
    have hfl : (0:ℤ) ≤ ⌊q * 2 ^ ((52:ℤ) - Int.log 2 q)⌋ :=
      Int.floor_nonneg.mpr (le_of_lt hx)
    have hrhe : (0:ℤ) ≤ rhe (q * 2 ^ ((52:ℤ) - Int.log 2 q)) :=
      le_trans hfl (rhe_ge_floor _)
    exact mul_nonneg (by exact_mod_cast hrhe) (zpow_nonneg (by norm_num) _)

/-- Helper: correct rounding to binary64 is monotone (rounding regions are
ordered intervals mapping to ordered representable values). -/
theorem roundDouble_mono {q q' : ℚ} (h : q ≤ q') :
    roundDouble q ≤ roundDouble q' := by
  by_cases hq : q ≤ 0
  · rw [roundDouble, if_pos hq]
    exact roundDouble_nonneg q'
  · push_neg at hq
    have hq' : (0:ℚ) < q' := lt_of_lt_of_le hq h
    have hb : (1:ℕ) < 2 := one_lt_two
    rw [roundDouble, roundDouble, if_neg (not_le.mpr hq),
      if_neg (not_le.mpr hq')]
    have hee : Int.log 2 q ≤ Int.log 2 q' := Int.log_mono_right hq h
    set e := Int.log 2 q with hedef
    set e' := Int.log 2 q' with hedef2
    rcases eq_or_lt_of_le hee with heq | hlt
    · rw [← heq]
      have hmul : q * 2 ^ ((52:ℤ) - e) ≤ q' * 2 ^ ((52:ℤ) - e) :=
        mul_le_mul_of_nonneg_right h (zpow_nonneg (by norm_num) _)
      have hcast : ((rhe (q * 2 ^ ((52:ℤ) - e)) : ℤ) : ℚ) ≤
          ((rhe (q' * 2 ^ ((52:ℤ) - e)) : ℤ) : ℚ) :=
        Int.cast_le.mpr (rhe_mono hmul)
      exact mul_le_mul_of_nonneg_right hcast (zpow_nonneg (by norm_num) _)
    · have hub : (rhe (q * 2 ^ ((52:ℤ) - e)) : ℚ) * 2 ^ (e - 52) ≤
          2 ^ (e + 1) := by
        have h1 : q < (2:ℚ) ^ (e + 1) := by
          have := Int.lt_zpow_succ_log_self hb q
          rw [← hedef] at this
          exact_mod_cast this
        have h2 : q * 2 ^ ((52:ℤ) - e) < (2:ℚ) ^ (e + 1) * 2 ^ ((52:ℤ) - e) :=
          mul_lt_mul_of_pos_right h1 (zpow_pos (by norm_num) _)
        have h3 : (2:ℚ) ^ (e + 1) * 2 ^ ((52:ℤ) - e) = 2 ^ (53:ℤ) := by
          rw [← zpow_add₀ (by norm_num : (2:ℚ) ≠ 0)]
          congr 1
          ring
        have h4 : rhe (q * 2 ^ ((52:ℤ) - e)) ≤ 2 ^ 53 := by
          have hfl : ⌊q * 2 ^ ((52:ℤ) - e)⌋ < 2 ^ 53 := by
            rw [Int.floor_lt]
            rw [h3] at h2
            calc q * 2 ^ ((52:ℤ) - e) < 2 ^ (53:ℤ) := h2
              _ = ((2 ^ 53 : ℤ) : ℚ) := by norm_num
          have := rhe_le_floor_add_one (q * 2 ^ ((52:ℤ) - e))
          omega
        calc (rhe (q * 2 ^ ((52:ℤ) - e)) : ℚ) * 2 ^ (e - 52)
            ≤ ((2 ^ 53 : ℤ) : ℚ) * 2 ^ (e - 52) := by
              apply mul_le_mul_of_nonneg_right _ (zpow_nonneg (by norm_num) _)
              exact_mod_cast h4
          _ = 2 ^ (e + 1) := by
              have hcast : ((2 ^ 53 : ℤ) : ℚ) = (2:ℚ) ^ (53:ℤ) := by norm_num
              rw [hcast, ← zpow_add₀ (by norm_num : (2:ℚ) ≠ 0)]
              congr 1
              ring
      have hlb : (2:ℚ) ^ e' ≤
          (rhe (q' * 2 ^ ((52:ℤ) - e')) : ℚ) * 2 ^ (e' - 52) := by
        have h1 : (2:ℚ) ^ e' ≤ q' := by
          have := Int.zpow_log_le_self hb hq'
          rw [← hedef2] at this
          exact_mod_cast this
        have h2 : (2:ℚ) ^ e' * 2 ^ ((52:ℤ) - e') ≤ q' * 2 ^ ((52:ℤ) - e') :=
          mul_le_mul_of_nonneg_right h1 (zpow_nonneg (by norm_num) _)
        have h3 : (2:ℚ) ^ e' * 2 ^ ((52:ℤ) - e') = 2 ^ (52:ℤ) := by
          rw [← zpow_add₀ (by norm_num : (2:ℚ) ≠ 0)]
          congr 1
          ring
        have h4 : (2 ^ 52 : ℤ) ≤ rhe (q' * 2 ^ ((52:ℤ) - e')) := by
          have hfl : (2 ^ 52 : ℤ) ≤ ⌊q' * 2 ^ ((52:ℤ) - e')⌋ := by
            rw [Int.le_floor]
            rw [h3] at h2
            calc ((2 ^ 52 : ℤ) : ℚ) = (2:ℚ) ^ (52:ℤ) := by norm_num
              _ ≤ q' * 2 ^ ((52:ℤ) - e') := h2
          exact le_trans hfl (rhe_ge_floor _)
        calc (2:ℚ) ^ e' = ((2 ^ 52 : ℤ) : ℚ) * 2 ^ (e' - 52) := by
              have hcast : ((2 ^ 52 : ℤ) : ℚ) = (2:ℚ) ^ (52:ℤ) := by norm_num
              rw [hcast, ← zpow_add₀ (by norm_num : (2:ℚ) ≠ 0)]
              congr 1
              ring
          _ ≤ (rhe (q' * 2 ^ ((52:ℤ) - e')) : ℚ) * 2 ^ (e' - 52) := by
              apply mul_le_mul_of_nonneg_right _ (zpow_nonneg (by norm_num) _)
              exact_mod_cast h4
      have hmid : (2:ℚ) ^ (e + 1) ≤ (2:ℚ) ^ e' :=
        zpow_le_zpow_right₀ (by norm_num) (by omega)
      linarith

/-- Helper: roundDouble at a value whose binary exponent and rounded
significand are supplied and checked. -/
theorem roundDouble_eq_of (q : ℚ) (e m : ℤ) (hq : 0 < q)
    (h1 : (2:ℚ) ^ e ≤ q) (h2 : q < (2:ℚ) ^ (e + 1))
    (h3 : rhe (q * (2:ℚ) ^ ((52:ℤ) - e)) = m) :
    roundDouble q = (m : ℚ) * (2:ℚ) ^ (e - 52) := by
  have hb : (1:ℕ) < 2 := one_lt_two
  have hlog : Int.log 2 q = e := by
    have hle : e ≤ Int.log 2 q := by
      rw [← Int.zpow_le_iff_le_log hb hq]
      exact_mod_cast h1
    have hlt : Int.log 2 q < e + 1 := by
      rw [← Int.lt_zpow_iff_log_lt hb hq]
      exact_mod_cast h2
    omega
  unfold roundDouble
  rw [if_neg (not_le.mpr hq), hlog, h3]

/-- Helper: round-half-to-even at a value below its rounding midpoint. -/
theorem rhe_eq_of (q : ℚ) (f : ℤ) (hf : ⌊q⌋ = f) (hlt : q - f < 1/2) :
    rhe q = f := by
  unfold rhe
  rw [hf, if_pos hlt]

/-- Helper: the double-precision progress value at supplied and checked
exponents and significands for both rounding steps. -/
theorem pyProgress_eq_of (k n : Nat) (e1 m1 e2 m2 : ℤ) (r : Nat)
    (hq : 0 < (k:ℚ)/(n:ℚ))
    (ha1 : (2:ℚ)^e1 ≤ (k:ℚ)/(n:ℚ)) (ha2 : (k:ℚ)/(n:ℚ) < 2^(e1+1))
    (ha3 : rhe ((k:ℚ)/(n:ℚ) * 2^((52:ℤ) - e1)) = m1)
    (hb0 : 0 < (m1:ℚ) * 2^(e1-52) * 100)
    (hb1 : (2:ℚ)^e2 ≤ (m1:ℚ) * 2^(e1-52) * 100)
    (hb2 : (m1:ℚ) * 2^(e1-52) * 100 < 2^(e2+1))
    (hb3 : rhe ((m1:ℚ) * 2^(e1-52) * 100 * 2^((52:ℤ) - e2)) = m2)
    (hc : ⌊(m2:ℚ) * 2^(e2-52)⌋ = (r:ℤ)) :
    pyProgress k n = r := by
  unfold pyProgress
  rw [roundDouble_eq_of _ e1 m1 hq ha1 ha2 ha3,
      roundDouble_eq_of _ e2 m2 hb0 hb1 hb2 hb3, hc]
  exact Int.toNat_natCast r

/-- Helper: one is exactly representable, so it rounds to itself. -/
theorem roundDouble_one : roundDouble 1 = 1 := by
  rw [roundDouble_eq_of 1 0 4503599627370496 (by norm_num) (by norm_num)
    (by norm_num)
    (rhe_eq_of _ _ (Int.floor_eq_iff.mpr (by norm_num)) (by norm_num))]
  norm_num

/-- Helper: one hundred is exactly representable, so it rounds to itself. -/
theorem roundDouble_hundred : roundDouble 100 = 100 := by
  rw [roundDouble_eq_of 100 6 7036874417766400 (by norm_num) (by norm_num)
    (by norm_num)
    (rhe_eq_of _ _ (Int.floor_eq_iff.mpr (by norm_num)) (by norm_num))]
  norm_num

/-- Helper: after the last counted check the persisted progress is exactly
100 — n / n is the exact double 1.0 and 1.0 * 100 is exactly 100.0. -/
theorem pyProgress_self (n : Nat) (h : 0 < n) : pyProgress n n = 100 := by
  unfold pyProgress
  have hne : ((n:ℚ)) ≠ 0 := Nat.cast_ne_zero.mpr (by omega)
  rw [div_self hne, roundDouble_one, one_mul, roundDouble_hundred]
  have hfl : ⌊(100:ℚ)⌋ = 100 := by norm_num
  rw [hfl]
  rfl

/-- Helper: the double-precision progress value is monotone in the number of
completed checks (division, multiplication by 100, correct rounding and
truncation are all monotone). -/
theorem pyProgress_mono {k k' : Nat} (n : Nat) (h : k ≤ k') :
    pyProgress k n ≤ pyProgress k' n := by
  unfold pyProgress
  have h1 : (k:ℚ)/(n:ℚ) ≤ (k':ℚ)/(n:ℚ) := by
    rcases Nat.eq_zero_or_pos n with h0 | h0
    · subst h0; simp
    · rw [div_le_div_iff_of_pos_right (by exact_mod_cast h0)]
      exact_mod_cast h
  exact Int.toNat_le_toNat (Int.floor_mono (roundDouble_mono
    (mul_le_mul_of_nonneg_right (roundDouble_mono h1) (by norm_num))))

/-- Helper: while at most all checks are counted, the persisted progress is
at most 100. -/
theorem pyProgress_le_hundred {k n : Nat} (h : k ≤ n) :
    pyProgress k n ≤ 100 := by
  rcases Nat.eq_zero_or_pos n with h0 | h0
  · subst h0
    have hk : k = 0 := by omega
    subst hk
    simp [pyProgress, roundDouble]
  · calc pyProgress k n ≤ pyProgress n n := pyProgress_mono n h
      _ = 100 := pyProgress_self n h0

/-- Helper: after 1 of 3 checks the program persists 33
(0.333… * 100 = 33.333… in doubles, truncated). -/
theorem pyProgress_one_three : pyProgress 1 3 = 33 := by
  apply pyProgress_eq_of 1 3 (-2) 6004799503160661 5 4691249611844266 33
  · norm_num
  · norm_num
  · norm_num
  · exact rhe_eq_of _ _ (Int.floor_eq_iff.mpr (by norm_num)) (by norm_num)
  · norm_num
  · norm_num
  · norm_num
  · exact rhe_eq_of _ _ (Int.floor_eq_iff.mpr (by norm_num)) (by norm_num)
  · exact Int.floor_eq_iff.mpr (by norm_num)

/-- Helper: after 2 of 3 checks the program persists 66
(0.666… * 100 = 66.666… in doubles, truncated — not round's 67). -/
theorem pyProgress_two_three : pyProgress 2 3 = 66 := by
  apply pyProgress_eq_of 2 3 (-1) 6004799503160661 6 4691249611844266 66
  · norm_num
  · norm_num
  · norm_num
  · exact rhe_eq_of _ _ (Int.floor_eq_iff.mpr (by norm_num)) (by norm_num)
  · norm_num
  · norm_num
  · norm_num
  · exact rhe_eq_of _ _ (Int.floor_eq_iff.mpr (by norm_num)) (by norm_num)
  · exact Int.floor_eq_iff.mpr (by norm_num)

/-- Helper: after 29 of 100 checks the program persists 28, one below the
exact percentage, because (29/100) * 100 evaluates to 28.999999999999996 in
doubles. -/
theorem pyProgress_twentynine_hundred : pyProgress 29 100 = 28 := by
  apply pyProgress_eq_of 29 100 (-2) 5224175567749775 4 8162774324609023 28
  · norm_num
  · norm_num
  · norm_num
  · exact rhe_eq_of _ _ (Int.floor_eq_iff.mpr (by norm_num)) (by norm_num)
  · norm_num
  · norm_num
  · norm_num
  · exact rhe_eq_of _ _ (Int.floor_eq_iff.mpr (by norm_num)) (by norm_num)
  · exact Int.floor_eq_iff.mpr (by norm_num)

/-- C5 counterexample: a three-check job persists progress 66 after its
second check — the double-precision evaluation of int((2/3) * 100) — while
the claimed formula round(100 * completed / total) gives 67 there. -/
theorem C5_counterexample :
    progressParams (process_scan (some "h") none ["ping", "ssl", "dns"]
      (fun _ => .ok { status := .success, findings := 0, severity := .info })) =
      [0, 33, 66, 100] ∧
    specRound (100 * 2) 3 = 67 ∧
    ¬ (66 = specRound (100 * 2) 3) := by
  refine ⟨?_, by decide, by decide⟩
  simp [process_scan, scanLoop, progressParams, pyProgress_one_three,
    pyProgress_two_three, pyProgress_self]

/-- C5 amended: after each check the polling worker persists the
double-precision evaluation of int((completed / total) * 100), one update per
check plus the initial zero; this truncates rather than rounds, and the float
rounding can even land one below the exact percentage floor (28 at 29 of 100,
whereas the exact floor is 29); the final per-check update after the last
check is exactly 100.  The Celery task persists the same values after each
known-named check but skips both the result write and the progress update for
unknown names. -/
theorem C5_amended_progress_double
    (t : String) (lk : Option String) (checks : List String)
    (call : Nat → PyOutcome CheckResult) :
    progressParams (process_scan (some t) lk checks call) =
      0 :: (withIndexFrom 0 checks).map
        (fun p => pyProgress (p.1 + 1) checks.length) ∧
    (progressParams (process_scan (some t) lk checks call)).length =
      checks.length + 1 ∧
    (∀ n, 0 < n → pyProgress n n = 100) ∧
    pyProgress 29 100 = 28 ∧
    (∀ checks2 call2,
       (taskProgressValues (execute_scan checks2 call2)).length =
         (checks2.filter (fun n => decide (n ∈ knownChecks))).length + 2) := by
  refine ⟨?_, ?_, pyProgress_self, pyProgress_twentynine_hundred, ?_⟩
  · simp [process_scan, progressParams_append, progressParams_scanLoop,
      progressParams]
  · simp [process_scan, progressParams_append, progressParams_scanLoop,
      progressParams, withIndexFrom_length]
  · intro checks2 call2
    simp [execute_scan, taskProgressValues_append,
      taskProgressValues_tasksCheckLoop, taskProgressValues]

/-- C5 amended, witness: the exact-100 conjunct applied to a four-check
job. -/
theorem C5_amended_witness : pyProgress 4 4 = 100 :=
  (C5_amended_progress_double "h" none []
    (fun _ => .ok { status := .success, findings := 0, severity := .info })
    ).2.2.1 4 (by decide)

/-- Helper: the job-row states attained through the check loop of
process_scan followed by the completed update have non-decreasing progress,
for any starting row whose progress is below the loop's running percentage.
-/
theorem rowTrace_scanLoop_chain (call : Nat → PyOutcome CheckResult)
    (total : Nat) :
    ∀ (checks : List String) (i : Nat) (row : JobRow),
    row.progress ≤ pyProgress i total →
    i + checks.length ≤ total →
    List.Chain' (· ≤ ·)
      ((row :: rowTrace row (scanLoop total call i checks ++
        [ScanEffect.update .completed none])).map (·.progress)) := by
  intro checks
  induction checks with
  | nil =>
      intro i row hp ht
      simp only [scanLoop, List.nil_append, rowTrace, update_scan_status,
        List.map_cons, List.map_nil]
      exact List.chain'_cons.mpr
        ⟨le_trans hp (pyProgress_le_hundred (by omega)),
         List.chain'_singleton 100⟩
  | cons name rest ih =>
      intro i row hp ht
      simp only [scanLoop, List.cons_append, rowTrace, List.map_cons]
      rw [List.chain'_cons]
      constructor
      · show row.progress ≤
          (update_scan_status row .running (some (pyProgress (i + 1) total)) 0).progress
        calc row.progress ≤ pyProgress i total := hp
          _ ≤ pyProgress (i + 1) total := pyProgress_mono total (Nat.le_succ i)
          _ = _ := by simp [update_scan_status]
      · have h2 := ih (i + 1)
          (update_scan_status row .running (some (pyProgress (i + 1) total)) 0)
          (by simp [update_scan_status])
          (by simp only [List.length_cons] at ht; omega)
        simpa using h2

/-- C6 counterexample: a one-check job passes through a persisted state with
status running and progress 100 (after its last check, before the completed
update), so progress 100 does not imply the terminal-success status. -/
theorem C6_counterexample :
    ({ status := JobStatus.running, progress := 100, startedAt := some 0,
       completedAt := none } : JobRow) ∈
      rowTrace initialRow (process_scan (some "h") none ["ping"]
        (fun _ => .ok { status := .success, findings := 0, severity := .info })) ∧
    JobStatus.running ≠ JobStatus.completed := by
  refine ⟨?_, by decide⟩
  have h1 : pyProgress 1 1 = 100 := pyProgress_self 1 (by norm_num)
  simp [process_scan, scanLoop, rowTrace, update_scan_status, initialRow, h1]

/-- C6 amended: within a single run of process_scan the sequence of persisted
job-row states, starting from a freshly created row, has monotonically
non-decreasing progress (the second half of the original claim fails: the
run also persists progress 100 while the status is still running, immediately
before the completed transition). -/
theorem C6_amended_progress_monotone (url lk : Option String)
    (checks : List String) (call : Nat → PyOutcome CheckResult) :
    List.Chain' (· ≤ ·)
      ((initialRow ::
        rowTrace initialRow (process_scan url lk checks call)).map
        (·.progress)) := by
  have main : ∀ t : String,
      List.Chain' (· ≤ ·)
        ((initialRow ::
          rowTrace initialRow (process_scan (some t) lk checks call)).map
          (·.progress)) := by
    intro t
    simp only [process_scan, rowTrace, List.map_cons]
    rw [List.chain'_cons]
    constructor
    · show initialRow.progress ≤
        (update_scan_status initialRow .running (some 0) 0).progress
      simp [update_scan_status, initialRow]
    · have h2 := rowTrace_scanLoop_chain call checks.length checks 0
        (update_scan_status initialRow .running (some 0) 0)
        (by simp [update_scan_status]) (by omega)
      simpa using h2
  cases url with
  | some u => exact main u
  | none =>
      cases lk with
      | some t => exact main t
      | none =>
          simp [process_scan, rowTrace, update_scan_status, initialRow]

/-- Helper: pickOldest never returns none on a non-empty candidate list. -/
theorem pickOldest_none (s : SysState) :
    ∀ l : List Nat, pickOldest s l = none → l = [] := by
  intro l
  cases l with
  | nil => intro; rfl
  | cons j rest =>
      intro h
      cases hr : pickOldest s rest with
      | none => simp [pickOldest, hr] at h
      | some k =>
          by_cases hc : (s.job j).created ≤ (s.job k).created <;>
            simp [pickOldest, hr, hc] at h

/-- Helper: pickOldest returns an element of its candidate list. -/
theorem pickOldest_mem (s : SysState) :
    ∀ (l : List Nat) (j : Nat), pickOldest s l = some j → j ∈ l := by
  intro l
  induction l with
  | nil => intro j h; simp [pickOldest] at h
  | cons a rest ih =>
      intro j h
      cases hr : pickOldest s rest with
      | none =>
          simp [pickOldest, hr] at h
          subst h; exact List.mem_cons_self a rest
      | some k =>
          by_cases hc : (s.job a).created ≤ (s.job k).created
          · simp [pickOldest, hr, hc] at h
            subst h; exact List.mem_cons_self a rest
          · simp [pickOldest, hr, hc] at h
            subst h; exact List.mem_cons_of_mem a (ih k hr)

/-- Helper: pickOldest returns an element whose creation time is minimal in
its candidate list. -/
theorem pickOldest_min (s : SysState) :
    ∀ (l : List Nat) (j : Nat), pickOldest s l = some j →
      ∀ k ∈ l, (s.job j).created ≤ (s.job k).created := by
  intro l
  induction l with
  | nil => intro j h; simp [pickOldest] at h
  | cons a rest ih =>
      intro j h k hk
      cases hr : pickOldest s rest with
      | none =>
          have hrest : rest = [] := pickOldest_none s rest hr
          subst hrest
          simp [pickOldest] at h
          subst h
          simp at hk
          subst hk
          exact le_refl _
      | some b =>
          by_cases hc : (s.job a).created ≤ (s.job b).created
          · simp [pickOldest, hr, hc] at h
            subst h
            rcases List.mem_cons.mp hk with hka | hkr
            · subst hka; exact le_refl _
            · exact le_trans hc (ih b hr k hkr)
          · simp [pickOldest, hr, hc] at h
            subst h
            rcases List.mem_cons.mp hk with hka | hkr
            · subst hka; exact Nat.le_of_lt (Nat.lt_of_not_le hc)
            · exact ih b hr k hkr

/-- Helper: membership in the SELECT's visible rows is exactly
eligibility. -/
theorem mem_eligibleIds (s : SysState) (j : Nat) :
    j ∈ eligibleIds s ↔ Eligible s j := by
  simp [eligibleIds, Eligible, List.mem_filter, and_assoc]

/-- Helper: a row returned by get_queued_scans is eligible. -/
theorem selectOldest_eligible (s : SysState) (j : Nat)
    (h : selectOldest s = some j) : Eligible s j :=
  (mem_eligibleIds s j).mp (pickOldest_mem s _ j h)

/-- Helper: a row returned by get_queued_scans has minimal creation time
among eligible rows. -/
theorem selectOldest_min (s : SysState) (j : Nat)
    (h : selectOldest s = some j) :
    ∀ k, Eligible s k → (s.job j).created ≤ (s.job k).created := by
  intro k hk
  exact pickOldest_min s _ j h k ((mem_eligibleIds s k).mpr hk)

/-- C8: claim selection is FIFO by creation time — in a backlog with no row
locked, get_queued_scans returns a queued job whose created timestamp is
least among all queued jobs. -/
theorem C8_claim_selects_oldest_queued (s : SysState)
    (hnl : ∀ i ∈ s.ids, (s.job i).lockedBy = none)
    (j : Nat) (h : selectOldest s = some j) :
    j ∈ s.ids ∧ (s.job j).committedStatus = .queued ∧
    ∀ k ∈ s.ids, (s.job k).committedStatus = .queued →
      (s.job j).created ≤ (s.job k).created := by
  have he := selectOldest_eligible s j h
  refine ⟨he.1, he.2.1, ?_⟩
  intro k hk hq
  exact selectOldest_min s j h k ⟨hk, hq, hnl k hk⟩

/-- C8, witness: in a backlog of three queued unlocked jobs created at times
5, 3 and 9, the claim returns the job created at time 3, the oldest. -/
theorem C8_witness :
    1 ∈ exampleBacklog.ids ∧
    (exampleBacklog.job 1).committedStatus = .queued ∧
    ∀ k ∈ exampleBacklog.ids,
      (exampleBacklog.job k).committedStatus = .queued →
        (exampleBacklog.job 1).created ≤ (exampleBacklog.job k).created :=
  C8_claim_selects_oldest_queued exampleBacklog (by decide) 1 (by decide)

/-- Helper: the job function after a claim. -/
theorem claimPost_job (s : SysState) (w j k : Nat) :
    (claimPost s w j).job k =
      if k = j then { s.job j with lockedBy := some w } else s.job k := by
  simp [claimPost, Function.update_apply]

/-- Helper: the worker counters after a claim. -/
theorem claimPost_wpc (s : SysState) (w j v : Nat) :
    (claimPost s w j).wpc v =
      if v = w then .claimedJob j else s.wpc v := by
  simp [claimPost, Function.update_apply]

/-- Helper: hand-out counts after a claim. -/
theorem EventsFor_claimPost (s : SysState) (w j k : Nat) :
    EventsFor (claimPost s w j) k =
      EventsFor s k + (if j = k then 1 else 0) := by
  by_cases h : j = k <;>
    simp [claimPost, EventsFor, List.filter_append, h]

/-- Helper: the job function after the claiming worker's UPDATE. -/
theorem setRunPost_job (s : SysState) (w j : Nat) (st : JobStatus) (k : Nat) :
    (setRunPost s w j st).job k =
      if k = j then { s.job j with pendingStatus := some st } else s.job k := by
  simp [setRunPost, Function.update_apply]

/-- Helper: the worker counters after the claiming worker's UPDATE. -/
theorem setRunPost_wpc (s : SysState) (w j : Nat) (st : JobStatus) (v : Nat) :
    (setRunPost s w j st).wpc v =
      if v = w then .updatedJob j else s.wpc v := by
  simp [setRunPost, Function.update_apply]

/-- Helper: the job function after the claiming worker's commit. -/
theorem commitPost_job (s : SysState) (w j k : Nat) :
    (commitPost s w j).job k =
      if k = j then
        { s.job j with
          committedStatus :=
            (s.job j).pendingStatus.getD (s.job j).committedStatus,
          pendingStatus := none, lockedBy := none }
      else s.job k := by
  simp [commitPost, Function.update_apply]

/-- Helper: the worker counters after the claiming worker's commit. -/
theorem commitPost_wpc (s : SysState) (w j v : Nat) :
    (commitPost s w j).wpc v = if v = w then .idle else s.wpc v := by
  simp [commitPost, Function.update_apply]

/-- Helper: the job function after a later autocommitted owner update. -/
theorem laterPost_job (s : SysState) (j : Nat) (st : JobStatus) (k : Nat) :
    (laterPost s j st).job k =
      if k = j then { s.job j with committedStatus := st } else s.job k := by
  simp [laterPost, Function.update_apply]

/-- Helper: the protocol invariant holds in the initial backlog. -/
theorem inv_init (ids : List Nat) (created : Nat → Nat) :
    Inv (initState ids created) := by
  constructor
  · intro j; simp [EventsFor, initState]
  · intro j h; simp [EventsFor, initState] at h
  · intro w j h; simp [initState] at h
  · intro w j h; simp [initState] at h

/-- Helper: every protocol step preserves the invariant. -/
theorem inv_step {s s2 : SysState} (hinv : Inv s) (hs : Step s s2) :
    Inv s2 := by
  cases hs with
  | claim w j hw hsel =>
      have helig : Eligible s j := selectOldest_eligible s j hsel
      have hev0 : EventsFor s j = 0 := by
        by_contra hne
        exact hinv.window j (Nat.one_le_iff_ne_zero.mpr hne) helig
      constructor
      · intro k
        rw [EventsFor_claimPost]
        by_cases hkj : j = k
        · subst hkj; rw [hev0]; simp
        · simp [hkj]; exact hinv.once k
      · intro k hk hel
        rcases hel with ⟨hel1, hel2, hel3⟩
        by_cases hkj : k = j
        · subst hkj
          rw [claimPost_job] at hel3
          simp at hel3
        · rw [EventsFor_claimPost] at hk
          have hne : ¬ j = k := fun hc => hkj hc.symm
          rw [if_neg hne, Nat.add_zero] at hk
          rw [claimPost_job, if_neg hkj] at hel2 hel3
          exact hinv.window k hk ⟨hel1, hel2, hel3⟩
      · intro v k hold
        rw [claimPost_wpc] at hold
        rw [claimPost_job]
        by_cases hvw : v = w
        · rw [if_pos hvw] at hold
          have hkj : k = j := by
            rcases hold with h1 | h1
            · cases h1; rfl
            · cases h1
          subst hkj
          simp [hvw]
        · rw [if_neg hvw] at hold
          have hlv := hinv.owner v k hold
          by_cases hkj : k = j
          · subst hkj
            rw [helig.2.2] at hlv
            cases hlv
          · rw [if_neg hkj]
            exact hlv
      · intro v k hv
        rw [claimPost_wpc] at hv
        by_cases hvw : v = w
        · rw [if_pos hvw] at hv; cases hv
        · rw [if_neg hvw] at hv
          obtain ⟨st, hst, hne⟩ := hinv.pend v k hv
          refine ⟨st, ?_, hne⟩
          rw [claimPost_job]
          by_cases hkj : k = j
          · subst hkj; simpa using hst
          · rw [if_neg hkj]; exact hst
  | setRun w j st hw hst =>
      have hlockj : (s.job j).lockedBy = some w :=
        hinv.owner w j (Or.inl hw)
      constructor
      · intro k; exact hinv.once k
      · intro k hk hel
        rcases hel with ⟨hel1, hel2, hel3⟩
        rw [setRunPost_job] at hel2 hel3
        by_cases hkj : k = j
        · subst hkj
          simp at hel3
          rw [hel3] at hlockj
          cases hlockj
        · rw [if_neg hkj] at hel2 hel3
          exact hinv.window k hk ⟨hel1, hel2, hel3⟩
      · intro v k hold
        rw [setRunPost_wpc] at hold
        rw [setRunPost_job]
        by_cases hvw : v = w
        · rw [if_pos hvw] at hold
          have hkj : k = j := by
            rcases hold with h1 | h1
            · cases h1
            · cases h1; rfl
          subst hkj
          subst hvw
          simpa using hlockj
        · rw [if_neg hvw] at hold
          have hlv := hinv.owner v k hold
          by_cases hkj : k = j
          · subst hkj
            rw [hlockj] at hlv
            cases hlv
            exact absurd rfl hvw
          · rw [if_neg hkj]
            exact hlv
      · intro v k hv
        rw [setRunPost_wpc] at hv
        rw [setRunPost_job]
        by_cases hvw : v = w
        · rw [if_pos hvw] at hv
          cases hv
          refine ⟨st, by simp, ?_⟩
          rcases hst with h1 | h1 <;> subst h1 <;> intro hq <;> cases hq
        · rw [if_neg hvw] at hv
          obtain ⟨st2, hst2, hne2⟩ := hinv.pend v k hv
          have hlv := hinv.owner v k (Or.inr hv)
          by_cases hkj : k = j
          · subst hkj
            rw [hlockj] at hlv
            cases hlv
            exact absurd rfl hvw
          · rw [if_neg hkj]
            exact ⟨st2, hst2, hne2⟩
  | commit w j hw =>
      have hlockj : (s.job j).lockedBy = some w :=
        hinv.owner w j (Or.inr hw)
      obtain ⟨st, hstp, hstq⟩ := hinv.pend w j hw
      constructor
      · intro k; exact hinv.once k
      · intro k hk hel
        rcases hel with ⟨hel1, hel2, hel3⟩
        rw [commitPost_job] at hel2
        by_cases hkj : k = j
        · subst hkj
          simp [hstp] at hel2
          exact hstq hel2
        · rw [if_neg hkj] at hel2
          rw [commitPost_job, if_neg hkj] at hel3
          exact hinv.window k hk ⟨hel1, hel2, hel3⟩
      · intro v k hold
        rw [commitPost_wpc] at hold
        by_cases hvw : v = w
        · rw [if_pos hvw] at hold
          rcases hold with h1 | h1 <;> cases h1
        · rw [if_neg hvw] at hold
          have hlv := hinv.owner v k hold
          rw [commitPost_job]
          by_cases hkj : k = j
          · subst hkj
            rw [hlockj] at hlv
            cases hlv
            exact absurd rfl hvw
          · rw [if_neg hkj]
            exact hlv
      · intro v k hv
        rw [commitPost_wpc] at hv
        by_cases hvw : v = w
        · rw [if_pos hvw] at hv; cases hv
        · rw [if_neg hvw] at hv
          obtain ⟨st2, hst2, hne2⟩ := hinv.pend v k hv
          have hlv := hinv.owner v k (Or.inr hv)
          rw [commitPost_job]
          by_cases hkj : k = j
          · subst hkj
            rw [hlockj] at hlv
            cases hlv
            exact absurd rfl hvw
          · rw [if_neg hkj]
            exact ⟨st2, hst2, hne2⟩
  | later j st hj hst =>
      constructor
      · intro k; exact hinv.once k
      · intro k hk hel
        rcases hel with ⟨hel1, hel2, hel3⟩
        rw [laterPost_job] at hel2
        by_cases hkj : k = j
        · subst hkj
          simp at hel2
          rcases hst with h1 | h1 | h1 <;> subst h1 <;> cases hel2
        · rw [if_neg hkj] at hel2
          rw [laterPost_job, if_neg hkj] at hel3
          exact hinv.window k hk ⟨hel1, hel2, hel3⟩
      · intro v k hold
        have hlv := hinv.owner v k hold
        rw [laterPost_job]
        by_cases hkj : k = j
        · subst hkj; simpa using hlv
        · rw [if_neg hkj]; exact hlv
      · intro v k hv
        obtain ⟨st2, hst2, hne2⟩ := hinv.pend v k hv
        rw [laterPost_job]
        by_cases hkj : k = j
        · subst hkj
          exact ⟨st2, by simpa using hst2, hne2⟩
        · rw [if_neg hkj]
          exact ⟨st2, hst2, hne2⟩

/-- Helper: the invariant holds in every reachable state. -/
theorem inv_reachable (ids : List Nat) (created : Nat → Nat) (s : SysState)
    (h : Reachable ids created s) : Inv s := by
  induction h with
  | refl => exact inv_init ids created
  | tail _ hstep ih => exact inv_step ih hstep

/-- C1: in every state the claim protocol can reach from a backlog of queued
jobs under any interleaving of workers, each job has been handed out at most
once, and a job that has been handed out is never again visible as claimable
to another caller — capturing the atomicity of SELECT FOR UPDATE SKIP LOCKED
with the status flip committed before the row lock is released. -/
theorem C1_claim_at_most_once (ids : List Nat) (created : Nat → Nat)
    (s : SysState) (h : Reachable ids created s) (j : Nat) :
    EventsFor s j ≤ 1 ∧ (1 ≤ EventsFor s j → ¬ Eligible s j) := by
  have hinv := inv_reachable ids created s h
  exact ⟨hinv.once j, hinv.window j⟩

/-- C1, witness: the guarantee applied in the state reached after worker 0
claims the oldest of two queued jobs. -/
theorem C1_witness :
    EventsFor (claimPost (initState [0, 1] (fun j => j)) 0 0) 0 ≤ 1 ∧
    (1 ≤ EventsFor (claimPost (initState [0, 1] (fun j => j)) 0 0) 0 →
      ¬ Eligible (claimPost (initState [0, 1] (fun j => j)) 0 0) 0) :=
  C1_claim_at_most_once [0, 1] (fun j => j)
    (claimPost (initState [0, 1] (fun j => j)) 0 0)
    (Relation.ReflTransGen.single
      (Step.claim (initState [0, 1] (fun j => j)) 0 0 rfl (by decide)))
    0

end PSS
